import Mathlib

/-!
Shallow embedding of the grasp-sampling core of the dex-net repository
(`src/dexnet/grasping/grasp_sampler.py`) and of the termination-condition
combinators (`src/dexnet/learning/termination_conditions.py`).

The geometric collaborators that the repository imports from elsewhere
(`Contact3D`, `ParallelJawPtGrasp3D`'s search routines,
`PointGraspMetrics3D.force_closure`, numpy norms) and the process-wide
pseudorandom source are modelled as explicit function parameters
("oracles") and value tapes; the control flow of the repository's own
code is translated statement by statement.
-/

namespace DexNet

/-! ## Termination-condition combinators
(`termination_conditions.py`, lines 86-120).

The argument tuple of `TerminationCondition.__call__` is
`(k, cur_val, prev_val, cur_grad, cur_hess, model)`; the combinators only
forward it unchanged, so the payload types are abstract. -/

/-- Argument tuple passed to every termination condition call. -/
structure TermArgs (V G H M : Type) where
  k : Int
  cur_val : Option V
  prev_val : Option V
  cur_grad : Option G
  cur_hess : Option H
  model : Option M

/-- `OrTerminationCondition.__call__`: `terminate = False`, then
`terminate = terminate or tc(...)` over the child list. -/
def OrTerminationCondition (conds : List (TermArgs V G H M → Bool))
    (a : TermArgs V G H M) : Bool :=
  conds.foldl (fun terminate tc => terminate || tc a) false

/-- `AndTerminationCondition.__call__`: `terminate = True`, then
`terminate = terminate and tc(...)` over the child list. -/
def AndTerminationCondition (conds : List (TermArgs V G H M → Bool))
    (a : TermArgs V G H M) : Bool :=
  conds.foldl (fun terminate tc => terminate && tc a) true

/-- C10: for every argument tuple and child list, `OrTerminationCondition`
returns the disjunction of the children's results and
`AndTerminationCondition` returns their conjunction; in particular the empty
disjunction is `false` and the empty conjunction is `true`. -/
theorem termination_combinators_spec :
    ∀ (V G H M : Type) (conds : List (TermArgs V G H M → Bool))
      (a : TermArgs V G H M),
      OrTerminationCondition conds a = conds.any (fun tc => tc a) ∧
      AndTerminationCondition conds a = conds.all (fun tc => tc a) ∧
      OrTerminationCondition ([] : List (TermArgs V G H M → Bool)) a = false ∧
      AndTerminationCondition ([] : List (TermArgs V G H M → Bool)) a = true := by
  intro V G H M conds a
  have hor : ∀ (l : List (TermArgs V G H M → Bool)) (b : Bool),
      l.foldl (fun terminate tc => terminate || tc a) b =
        (b || l.any (fun tc => tc a)) := by
    intro l
    induction l with
    | nil => intro b; simp
    | cons c rest ih =>
      intro b
      simp [List.foldl_cons, List.any_cons, ih, Bool.or_assoc]
  have hand : ∀ (l : List (TermArgs V G H M → Bool)) (b : Bool),
      l.foldl (fun terminate tc => terminate && tc a) b =
        (b && l.all (fun tc => tc a)) := by
    intro l
    induction l with
    | nil => intro b; simp
    | cons c rest ih =>
      intro b
      simp [List.foldl_cons, List.all_cons, ih, Bool.and_assoc]
  refine ⟨?_, ?_, rfl, rfl⟩
  · simp [OrTerminationCondition, hor]
  · simp [AndTerminationCondition, hand]

/-! ## Sampler configuration (`GraspSampler._configure`, lines 67-87).

A Python config dictionary is modelled as a record of `Option` fields
(`none` = key absent).  `config['key']` on an absent key raises `KeyError`,
so `configure` returns `none` in that case.  Note that the stored value of
`target_num_grasps` may itself be Python `None`, in which case
`min_num_grasps` is read instead, hence the iterated `Option`. -/

/-- Python config dictionary restricted to the keys `_configure` reads. -/
structure RawConfig where
  sampling_friction_coef : Option ℚ
  num_cone_faces : Option ℕ
  grasp_samples_per_surface_point : Option ℕ
  target_num_grasps : Option (Option ℕ)
  target_num_grasps_per_size : Option ℕ
  openning_ratios : Option (List ℚ)
  min_num_grasps : Option ℕ
  min_contact_dist : Option ℚ
  num_grasp_rots : Option ℕ
  max_num_surface_points : Option ℕ
  grasp_dist_thresh : Option ℚ

/-- Fields set on `self` by a successful `_configure`. -/
structure SamplerParams where
  friction_coef : ℚ
  num_cone_faces : ℕ
  num_samples : ℕ
  target_num_grasps : ℕ
  target_num_grasps_per_size : ℕ
  openning_ratios : List ℚ
  min_contact_dist : ℚ
  num_grasp_rots : ℕ
  max_num_surface_points : ℕ
  grasp_dist_thresh : ℚ

/-- `GraspSampler._configure`, reading keys in source order; a missing
required key aborts (Python `KeyError`), while `max_num_surface_points`
defaults to 100 and `grasp_dist_thresh` defaults to 0. -/
def configure (c : RawConfig) : Option SamplerParams :=
  match c.sampling_friction_coef with
  | none => none
  | some fc =>
  match c.num_cone_faces with
  | none => none
  | some faces =>
  match c.grasp_samples_per_surface_point with
  | none => none
  | some nsamp =>
  match c.target_num_grasps with
  | none => none
  | some tng0 =>
  match c.target_num_grasps_per_size with
  | none => none
  | some tps =>
  match c.openning_ratios with
  | none => none
  | some oratios =>
  match (match tng0 with
         | some v => some v
         | none => c.min_num_grasps) with
  | none => none
  | some tng =>
  match c.min_contact_dist with
  | none => none
  | some mcd =>
  match c.num_grasp_rots with
  | none => none
  | some rots =>
  some { friction_coef := fc, num_cone_faces := faces, num_samples := nsamp,
         target_num_grasps := tng, target_num_grasps_per_size := tps,
         openning_ratios := oratios, min_contact_dist := mcd,
         num_grasp_rots := rots,
         max_num_surface_points := c.max_num_surface_points.getD 100,
         grasp_dist_thresh := c.grasp_dist_thresh.getD 0 }

/-- A successful configuration implies every required key was present, and
fixes the two defaulted fields. -/
lemma configure_isSome (c : RawConfig) (p : SamplerParams)
    (h : configure c = some p) :
    c.sampling_friction_coef.isSome ∧ c.num_cone_faces.isSome ∧
    c.grasp_samples_per_surface_point.isSome ∧ c.target_num_grasps.isSome ∧
    c.target_num_grasps_per_size.isSome ∧ c.openning_ratios.isSome ∧
    c.min_contact_dist.isSome ∧
    p.max_num_surface_points = c.max_num_surface_points.getD 100 ∧
    p.grasp_dist_thresh = c.grasp_dist_thresh.getD 0 := by
  unfold configure at h
  repeat' split at h
  all_goals try injection h with h
  all_goals try subst h
  all_goals simp_all

/-- C9: construction fails fast when any required key (friction coefficient,
cone-face count, per-point sample count, either target grasp count, opening
ratios, minimum contact distance) is absent, while `max_num_surface_points`
defaults to 100 and `grasp_dist_thresh` defaults to 0 when absent. -/
theorem configure_spec (c : RawConfig) :
    (c.sampling_friction_coef = none → configure c = none) ∧
    (c.num_cone_faces = none → configure c = none) ∧
    (c.grasp_samples_per_surface_point = none → configure c = none) ∧
    (c.target_num_grasps = none → configure c = none) ∧
    (c.target_num_grasps_per_size = none → configure c = none) ∧
    (c.openning_ratios = none → configure c = none) ∧
    (c.min_contact_dist = none → configure c = none) ∧
    (∀ p, configure c = some p →
      p.max_num_surface_points = c.max_num_surface_points.getD 100 ∧
      p.grasp_dist_thresh = c.grasp_dist_thresh.getD 0) := by
  refine ⟨?_, ?_, ?_, ?_, ?_, ?_, ?_,
    fun p hp => ⟨(configure_isSome c p hp).2.2.2.2.2.2.2.1,
                 (configure_isSome c p hp).2.2.2.2.2.2.2.2⟩⟩ <;>
    intro h <;>
    cases hc : configure c with
    | none => rfl
    | some p =>
      exfalso
      have hs := configure_isSome c p hc
      simp_all

/-- C9 witness: the claim instantiated at a concrete configuration with
`min_contact_dist` absent (construction fails) and, separately, the default
values at a complete configuration. -/
theorem configure_spec_witness :
    (configure ⟨some 1, some 8, some 2, some (some 5), some 3, some [1],
        none, none, some 1, none, none⟩ = none) ∧
    (∀ p, configure ⟨some 1, some 8, some 2, some (some 5), some 3, some [1],
        none, some (1/100), some 1, none, none⟩ = some p →
      p.max_num_surface_points = 100 ∧ p.grasp_dist_thresh = 0) := by
  constructor
  · exact (configure_spec _).2.2.2.2.2.2.1 rfl
  · intro p hp
    have h := (configure_spec ⟨some 1, some 8, some 2, some (some 5), some 3,
      some [1], none, some (1/100), some 1, none, none⟩).2.2.2.2.2.2.2 p hp
    simpa using h

/-! ## Geometric value types

Coordinates are rationals (the Python floats); numpy's Euclidean norm on
contact points is an external computation and is modelled below as an
oracle `dist` field of each sampler environment. -/

/-- A 3-vector of coordinates (a numpy length-3 array). -/
structure Vec3 where
  x : ℚ
  y : ℚ
  z : ℚ
deriving DecidableEq

/-- The fields of `ParallelJawPtGrasp3D` that `grasp_sampler.py` reads or
mutates: `center`, `axis` and `max_grasp_width_`. -/
structure Grasp where
  center : Vec3
  axis : Vec3
  max_grasp_width : ℚ
deriving DecidableEq

/-- `AntipodalGraspSampler.perturb_point` (lines 432-435):
`x_samp = x + (scale / 2.0) * (np.random.rand(3) - 0.5)`, with `u` the
`np.random.rand(3)` draw (componentwise in `[0, 1)`). -/
def perturb_point (v : Vec3) (scale : ℚ) (u : Vec3) : Vec3 :=
  ⟨v.x + scale / 2 * (u.x - 1/2),
   v.y + scale / 2 * (u.y - 1/2),
   v.z + scale / 2 * (u.z - 1/2)⟩

/-- Random draws consumed by one trial of the antipodal sampler's inner
loop: the `np.random.rand(3)` perturbation `u`, the direction `v` produced
by `sample_from_cone` from its own `theta`/`r` draws (an external numeric
computation, carried on the tape), and the grasp roll angle. -/
structure TrialRand where
  u : Vec3
  v : Vec3
  angle : ℚ

/-- Candidate contact of one antipodal trial
(`x1 = self.perturb_point(x_surf, graspable.sdf.resolution)`, line 469). -/
def antipodal_x1 (resolution : ℚ) (x_surf : Vec3) (t : TrialRand) : Vec3 :=
  perturb_point x_surf resolution t.u

/-- Bound on one perturbed coordinate: the offset `scale/2 * (u - 1/2)` has
magnitude at most `scale/2` whenever `u ∈ [0, 1]` and `0 ≤ scale`. -/
lemma perturb_coord_bound {scale u : ℚ} (hs : 0 ≤ scale) (h0 : 0 ≤ u)
    (h1 : u ≤ 1) : |scale / 2 * (u - 1/2)| ≤ scale / 2 := by
  calc |scale / 2 * (u - 1/2)| = scale / 2 * |u - 1/2| := by
        rw [abs_mul, abs_of_nonneg (by linarith : (0:ℚ) ≤ scale / 2)]
    _ ≤ scale / 2 * (1/2) := by
        apply mul_le_mul_of_nonneg_left _ (by linarith : (0:ℚ) ≤ scale / 2)
        rw [abs_le]
        constructor <;> linarith
    _ ≤ scale / 2 := by linarith

/-- C8: the candidate contact `x1` of each antipodal trial is the surface
point plus a random offset whose magnitude in each coordinate is at most
half the SDF grid resolution. -/
theorem antipodal_perturbation_spec :
    ∀ (res : ℚ) (x : Vec3) (t : TrialRand),
      0 ≤ res → 0 ≤ t.u.x → t.u.x ≤ 1 → 0 ≤ t.u.y → t.u.y ≤ 1 →
      0 ≤ t.u.z → t.u.z ≤ 1 →
      antipodal_x1 res x t = perturb_point x res t.u ∧
      (antipodal_x1 res x t).x = x.x + res / 2 * (t.u.x - 1/2) ∧
      (antipodal_x1 res x t).y = x.y + res / 2 * (t.u.y - 1/2) ∧
      (antipodal_x1 res x t).z = x.z + res / 2 * (t.u.z - 1/2) ∧
      |(antipodal_x1 res x t).x - x.x| ≤ res / 2 ∧
      |(antipodal_x1 res x t).y - x.y| ≤ res / 2 ∧
      |(antipodal_x1 res x t).z - x.z| ≤ res / 2 := by
  intro res x t hs hx0 hx1 hy0 hy1 hz0 hz1
  refine ⟨rfl, rfl, rfl, rfl, ?_, ?_, ?_⟩
  · have he : (antipodal_x1 res x t).x - x.x = res / 2 * (t.u.x - 1/2) := by
      simp only [antipodal_x1, perturb_point]; ring
    rw [he]; exact perturb_coord_bound hs hx0 hx1
  · have he : (antipodal_x1 res x t).y - x.y = res / 2 * (t.u.y - 1/2) := by
      simp only [antipodal_x1, perturb_point]; ring
    rw [he]; exact perturb_coord_bound hs hy0 hy1
  · have he : (antipodal_x1 res x t).z - x.z = res / 2 * (t.u.z - 1/2) := by
      simp only [antipodal_x1, perturb_point]; ring
    rw [he]; exact perturb_coord_bound hs hz0 hz1

/-- C8 witness: the perturbation bound at resolution 1, surface point 0 and
random draw (0, 1/2, 1). -/
theorem antipodal_perturbation_spec_witness :
    antipodal_x1 1 ⟨0, 0, 0⟩ ⟨⟨0, 1/2, 1⟩, ⟨0, 0, 0⟩, 0⟩ =
      perturb_point ⟨0, 0, 0⟩ 1 ⟨0, 1/2, 1⟩ ∧
    (antipodal_x1 1 ⟨0, 0, 0⟩ ⟨⟨0, 1/2, 1⟩, ⟨0, 0, 0⟩, 0⟩).x =
      0 + 1 / 2 * (0 - 1/2) ∧
    (antipodal_x1 1 ⟨0, 0, 0⟩ ⟨⟨0, 1/2, 1⟩, ⟨0, 0, 0⟩, 0⟩).y =
      0 + 1 / 2 * (1/2 - 1/2) ∧
    (antipodal_x1 1 ⟨0, 0, 0⟩ ⟨⟨0, 1/2, 1⟩, ⟨0, 0, 0⟩, 0⟩).z =
      0 + 1 / 2 * (1 - 1/2) ∧
    |(antipodal_x1 1 ⟨0, 0, 0⟩ ⟨⟨0, 1/2, 1⟩, ⟨0, 0, 0⟩, 0⟩).x - 0| ≤ 1 / 2 ∧
    |(antipodal_x1 1 ⟨0, 0, 0⟩ ⟨⟨0, 1/2, 1⟩, ⟨0, 0, 0⟩, 0⟩).y - 0| ≤ 1 / 2 ∧
    |(antipodal_x1 1 ⟨0, 0, 0⟩ ⟨⟨0, 1/2, 1⟩, ⟨0, 0, 0⟩, 0⟩).z - 0| ≤ 1 / 2 :=
  antipodal_perturbation_spec 1 ⟨0, 0, 0⟩ ⟨⟨0, 1/2, 1⟩, ⟨0, 0, 0⟩, 0⟩
    (by norm_num) (by norm_num) (by norm_num) (by norm_num) (by norm_num)
    (by norm_num) (by norm_num)

/-! ## Gaussian sampler (`GaussianGraspSampler.sample_grasps`, lines 297-369).

The Gaussian center draws and the spherical direction draws are external
randomness, supplied as tapes `centers` and `dirs`; the finger-closing
search and the numpy contact-distance are oracles in the environment. -/

/-- Oracles of the Gaussian sampler; `C` is the type of `Contact3D`
values. -/
structure GaussianEnv (C : Type) where
  max_width : ℚ
  min_contact_dist : ℚ
  close_fingers : Grasp → Bool × C × C
  dist : C → C → ℚ

/-- The exactly `num_grasps` candidate grasps built in the single pass of
lines 324-338: one per index `i < num_grasps`, from the center and
direction tapes, at gripper max width. -/
def gaussian_candidates (E : GaussianEnv C) (centers dirs : ℕ → Vec3)
    (num_grasps : ℕ) : List Grasp :=
  (List.range num_grasps).map (fun i => ⟨centers i, dirs i, E.max_width⟩)

/-- Acceptance test of lines 339-343: finger closing succeeds and the
contact separation strictly exceeds `min_contact_dist`. -/
def gaussian_keep (E : GaussianEnv C) (g : Grasp) : Bool :=
  let r := E.close_fingers g
  r.1 && decide (E.min_contact_dist < E.dist r.2.1 r.2.2)

/-- `GaussianGraspSampler.sample_grasps`: filter the single-pass candidate
list by the acceptance test; there are no retries. -/
def gaussian_sample_grasps (E : GaussianEnv C) (centers dirs : ℕ → Vec3)
    (num_grasps : ℕ) : List Grasp :=
  (gaussian_candidates E centers dirs num_grasps).filter (gaussian_keep E)

/-- C6: the Gaussian sampler draws exactly `num_grasps` candidate
(center, direction) pairs in a single pass, returns at most `num_grasps`
grasps, and every returned grasp is a candidate whose finger closing
succeeded with contact separation strictly above `min_contact_dist`. -/
theorem gaussian_sample_spec :
    ∀ (C : Type) (E : GaussianEnv C) (centers dirs : ℕ → Vec3) (n : ℕ),
      (gaussian_candidates E centers dirs n).length = n ∧
      (gaussian_sample_grasps E centers dirs n).length ≤ n ∧
      ∀ g ∈ gaussian_sample_grasps E centers dirs n,
        (E.close_fingers g).1 = true ∧
        E.min_contact_dist <
          E.dist (E.close_fingers g).2.1 (E.close_fingers g).2.2 ∧
        ∃ i, i < n ∧ g = ⟨centers i, dirs i, E.max_width⟩ := by
  intro C E centers dirs n
  have hlen : (gaussian_candidates E centers dirs n).length = n := by
    simp [gaussian_candidates]
  refine ⟨hlen, ?_, ?_⟩
  · calc (gaussian_sample_grasps E centers dirs n).length
        ≤ (gaussian_candidates E centers dirs n).length :=
          List.length_filter_le _ _
      _ = n := hlen
  · intro g hg
    rw [gaussian_sample_grasps, List.mem_filter] at hg
    obtain ⟨hmem, hkeep⟩ := hg
    rw [gaussian_keep, Bool.and_eq_true, decide_eq_true_eq] at hkeep
    rw [gaussian_candidates, List.mem_map] at hmem
    obtain ⟨i, hi, rfl⟩ := hmem
    exact ⟨hkeep.1, hkeep.2, i, List.mem_range.mp hi, rfl⟩

/-- Concrete Gaussian-sampler environment used by the C6 witness: closing
always succeeds with contacts 0 and 1 at distance 1. -/
def gaussianWitnessEnv : GaussianEnv ℚ :=
  ⟨2, 0, fun _ => (true, 0, 1), fun a b => b - a⟩

/-- C6 witness: the claim applied to the one grasp returned by the concrete
environment with a single candidate. -/
theorem gaussian_sample_spec_witness :
    (gaussianWitnessEnv.close_fingers ⟨⟨0, 0, 0⟩, ⟨0, 0, 0⟩, 2⟩).1 = true ∧
    gaussianWitnessEnv.min_contact_dist <
      gaussianWitnessEnv.dist
        (gaussianWitnessEnv.close_fingers ⟨⟨0, 0, 0⟩, ⟨0, 0, 0⟩, 2⟩).2.1
        (gaussianWitnessEnv.close_fingers ⟨⟨0, 0, 0⟩, ⟨0, 0, 0⟩, 2⟩).2.2 ∧
    ∃ i, i < 1 ∧
      (⟨⟨0, 0, 0⟩, ⟨0, 0, 0⟩, 2⟩ : Grasp) =
        ⟨(fun _ => ⟨0, 0, 0⟩ : ℕ → Vec3) i, (fun _ => ⟨0, 0, 0⟩ : ℕ → Vec3) i,
         gaussianWitnessEnv.max_width⟩ :=
  (gaussian_sample_spec ℚ gaussianWitnessEnv (fun _ => ⟨0, 0, 0⟩)
    (fun _ => ⟨0, 0, 0⟩) 1).2.2 ⟨⟨0, 0, 0⟩, ⟨0, 0, 0⟩, 2⟩ (by
      have h : gaussian_sample_grasps gaussianWitnessEnv (fun _ => ⟨0, 0, 0⟩)
          (fun _ => ⟨0, 0, 0⟩) 1 = [⟨⟨0, 0, 0⟩, ⟨0, 0, 0⟩, 2⟩] := by
        simp [gaussian_sample_grasps, gaussian_candidates, gaussian_keep,
          gaussianWitnessEnv, List.filter]
      rw [h]
      exact List.mem_singleton.mpr rfl)

/-! ## Uniform sampler (`UniformGraspSampler.sample_grasps`, lines 244-291).

The `np.random.choice(num_surface, size=2, replace=False)` draws are a tape
of index pairs; `replace=False` (distinct indices) and the index range are
numpy's contract and appear as hypotheses. -/

/-- Oracles of the uniform sampler; `C` is the type of `Contact3D` values.
`norm_diff a b` is numpy's `np.linalg.norm(a - b)`; `dfl` is the value an
out-of-range surface-point read would produce (never reached for a valid
tape). -/
structure UniformEnv (C : Type) where
  min_width : ℚ
  max_width : ℚ
  norm_diff : Vec3 → Vec3 → ℚ
  center_from_endpoints : Vec3 → Vec3 → Vec3
  axis_from_endpoints : Vec3 → Vec3 → Vec3
  close_fingers : Grasp → Bool × C × C
  dfl : Vec3

/-- Grasp built from an accepted point pair (lines 278-283): center and
axis from the endpoints, at gripper max width. -/
def uniform_grasp (E : UniformEnv C) (c0 c1 : Vec3) : Grasp :=
  ⟨E.center_from_endpoints c0 c1, E.axis_from_endpoints c0 c1, E.max_width⟩

/-- The while loop of lines 270-289, with draw counter: at most one draw
per iteration, stop when `num_grasps` grasps are collected or the fuel
(`max_num_samples - i`) is exhausted; returns (grasps, number of draws). -/
def uniform_go (E : UniformEnv C) (pts : List Vec3) (num_grasps : ℕ)
    (tape : ℕ → ℕ × ℕ) : ℕ → ℕ → List Grasp → List Grasp × ℕ
  | 0, _, grasps => (grasps, 0)
  | fuel+1, i, grasps =>
    if grasps.length < num_grasps then
      let idx := tape i
      let c0 := pts.getD idx.1 E.dfl
      let c1 := pts.getD idx.2 E.dfl
      let d := E.norm_diff c1 c0
      let grasps1 :=
        if E.min_width < d ∧ d < E.max_width then
          let g := uniform_grasp E c0 c1
          if (E.close_fingers g).1 then grasps ++ [g] else grasps
        else grasps
      let r := uniform_go E pts num_grasps tape fuel (i+1) grasps1
      (r.1, r.2 + 1)
    else (grasps, 0)

/-- `UniformGraspSampler.sample_grasps`: run the loop from an empty grasp
list with `i = 0` and at most `max_num_samples` iterations. -/
def uniform_sample_grasps (E : UniformEnv C) (pts : List Vec3)
    (num_grasps : ℕ) (tape : ℕ → ℕ × ℕ) (max_num_samples : ℕ) :
    List Grasp × ℕ :=
  uniform_go E pts num_grasps tape max_num_samples 0 []

lemma uniform_go_length (E : UniformEnv C) (pts : List Vec3) (num : ℕ)
    (tape : ℕ → ℕ × ℕ) :
    ∀ (fuel i : ℕ) (grasps : List Grasp), grasps.length ≤ num →
      (uniform_go E pts num tape fuel i grasps).1.length ≤ num := by
  intro fuel
  induction fuel with
  | zero => intro i grasps h; exact h
  | succ fuel ih =>
    intro i grasps h
    rw [uniform_go]
    split
    · rename_i hlt
      apply ih
      dsimp only
      split
      · split
        · simpa using hlt
        · exact h
      · exact h
    · exact h

lemma uniform_go_draws (E : UniformEnv C) (pts : List Vec3) (num : ℕ)
    (tape : ℕ → ℕ × ℕ) :
    ∀ (fuel i : ℕ) (grasps : List Grasp),
      (uniform_go E pts num tape fuel i grasps).2 ≤ fuel := by
  intro fuel
  induction fuel with
  | zero => intro i grasps; simp [uniform_go]
  | succ fuel ih =>
    intro i grasps
    rw [uniform_go]
    split
    · simpa using Nat.succ_le_succ (ih (i+1) _)
    · simp

/-- Acceptance property of a grasp returned by the uniform sampler. -/
def uniform_accepted (E : UniformEnv C) (pts : List Vec3) (g : Grasp) : Prop :=
  ∃ a b : ℕ, a ≠ b ∧ a < pts.length ∧ b < pts.length ∧
    E.min_width < E.norm_diff (pts.getD b E.dfl) (pts.getD a E.dfl) ∧
    E.norm_diff (pts.getD b E.dfl) (pts.getD a E.dfl) < E.max_width ∧
    (E.close_fingers (uniform_grasp E (pts.getD a E.dfl) (pts.getD b E.dfl))).1
      = true ∧
    g = uniform_grasp E (pts.getD a E.dfl) (pts.getD b E.dfl)

lemma uniform_go_mem (E : UniformEnv C) (pts : List Vec3) (num : ℕ)
    (tape : ℕ → ℕ × ℕ)
    (htape : ∀ n, (tape n).1 ≠ (tape n).2 ∧ (tape n).1 < pts.length ∧
      (tape n).2 < pts.length) :
    ∀ (fuel i : ℕ) (grasps : List Grasp),
      ∀ g ∈ (uniform_go E pts num tape fuel i grasps).1,
        g ∈ grasps ∨ uniform_accepted E pts g := by
  intro fuel
  induction fuel with
  | zero => intro i grasps g hg; exact Or.inl hg
  | succ fuel ih =>
    intro i grasps g hg
    rw [uniform_go] at hg
    split at hg
    · simp only at hg
      rcases ih (i+1) _ g hg with hin | hacc
      · split at hin
        · rename_i hwidth
          split at hin
          · rename_i hclose
            rcases List.mem_append.mp hin with hold | hnew
            · exact Or.inl hold
            · refine Or.inr ⟨(tape i).1, (tape i).2, (htape i).1,
                (htape i).2.1, (htape i).2.2, hwidth.1, hwidth.2, hclose,
                List.mem_singleton.mp hnew⟩
          · exact Or.inl hin
        · exact Or.inl hin
      · exact Or.inr hacc
    · exact Or.inl hg

/-- C5: the uniform sampler returns at most `num_grasps` grasps, performs
at most `max_num_samples` draws, and (for a tape honoring numpy's
`replace=False` contract) every returned grasp is built from two distinct
surface points with separation strictly inside
(`min_width`, `max_width`) for which finger closing succeeded. -/
theorem uniform_sample_spec :
    ∀ (C : Type) (E : UniformEnv C) (pts : List Vec3) (num_grasps : ℕ)
      (tape : ℕ → ℕ × ℕ) (max_num_samples : ℕ),
      (∀ n, (tape n).1 ≠ (tape n).2 ∧ (tape n).1 < pts.length ∧
        (tape n).2 < pts.length) →
      (uniform_sample_grasps E pts num_grasps tape max_num_samples).1.length
          ≤ num_grasps ∧
      (uniform_sample_grasps E pts num_grasps tape max_num_samples).2
          ≤ max_num_samples ∧
      ∀ g ∈ (uniform_sample_grasps E pts num_grasps tape max_num_samples).1,
        uniform_accepted E pts g := by
  intro C E pts num tape mns htape
  refine ⟨uniform_go_length E pts num tape mns 0 [] (by simp),
    uniform_go_draws E pts num tape mns 0 [], ?_⟩
  intro g hg
  rcases uniform_go_mem E pts num tape htape mns 0 [] g hg with hin | hacc
  · simp at hin
  · exact hacc

/-- Concrete uniform-sampler environment used by the C5 witness. -/
def uniformWitnessEnv : UniformEnv ℚ :=
  ⟨0, 2, fun _ _ => 1, fun a _ => a, fun _ b => b,
   fun _ => (true, 0, 1), ⟨0, 0, 0⟩⟩

/-- C5 witness: the claim applied to two surface points, a constant tape
drawing the pair (0, 1), target 1 and draw cap 5. -/
theorem uniform_sample_spec_witness :
    (uniform_sample_grasps uniformWitnessEnv [⟨0, 0, 0⟩, ⟨1, 0, 0⟩] 1
        (fun _ => (0, 1)) 5).1.length ≤ 1 ∧
    (uniform_sample_grasps uniformWitnessEnv [⟨0, 0, 0⟩, ⟨1, 0, 0⟩] 1
        (fun _ => (0, 1)) 5).2 ≤ 5 ∧
    ∀ g ∈ (uniform_sample_grasps uniformWitnessEnv [⟨0, 0, 0⟩, ⟨1, 0, 0⟩] 1
        (fun _ => (0, 1)) 5).1,
      uniform_accepted uniformWitnessEnv [⟨0, 0, 0⟩, ⟨1, 0, 0⟩] g :=
  uniform_sample_spec ℚ uniformWitnessEnv [⟨0, 0, 0⟩, ⟨1, 0, 0⟩] 1
    (fun _ => (0, 1)) 5
    (by intro n; refine ⟨?_, ?_, ?_⟩ <;> simp)

/-! ## Orchestrator (`GraspSampler.generate_grasps`, lines 187-238).

`self.sample_grasps` is the strategy chosen by the subclass; it is passed
in as a function of (opening-ratio index, iteration number).  `random.shuffle`
is modelled as a caller-supplied list function, constrained in the theorems
to preserve length. -/

/-- The while loop of lines 217-226 for one opening-ratio bucket, with an
explicit iteration counter `k` (starting at 1) and fuel; returns the
accumulated grasps and the number of sampler invocations.  Fuel `max_iter`
is exact: the guard `k ≤ max_iter` fails as the fuel runs out. -/
def sample_rounds (sampler : ℕ → List G) (target max_iter : ℕ) :
    ℕ → List G → ℕ → List G × ℕ
  | _, cur, 0 => (cur, 0)
  | k, cur, fuel+1 =>
    if cur.length < target ∧ k ≤ max_iter then
      let r := sample_rounds sampler target max_iter (k+1) (cur ++ sampler k) fuel
      (r.1, r.2 + 1)
    else (cur, 0)

/-- One per-ratio bucket of `generate_grasps` (lines 215-232): run the while
loop, shuffle, truncate if the accumulator overshot the target. -/
def generate_bucket (sampler : ℕ → List G) (shuffle : List G → List G)
    (target max_iter : ℕ) : List G :=
  let cur := (sample_rounds sampler target max_iter 1 [] max_iter).1
  let cur2 := shuffle cur
  if target < cur2.length then cur2.take target else cur2

/-- `GraspSampler.generate_grasps`: concatenate the buckets over all
opening-ratio indices and shuffle the union (lines 210-238). -/
def generate_grasps (sampler : ℕ → ℕ → List G) (shuffle : List G → List G)
    (target_per_size max_iter num_ratios : ℕ) : List G :=
  shuffle (((List.range num_ratios).map (fun rid =>
    generate_bucket (sampler rid) shuffle target_per_size max_iter)).flatten)

/-- Pure-arithmetic mirror of `sample_rounds` on lengths, for a sampler
returning `L` grasps per call. -/
def rounds_len (L target max_iter : ℕ) : ℕ → ℕ → ℕ → ℕ
  | _, n, 0 => n
  | k, n, fuel+1 =>
    if n < target ∧ k ≤ max_iter then rounds_len L target max_iter (k+1) (n + L) fuel
    else n

lemma sample_rounds_length (sampler : ℕ → List G) (L target max_iter : ℕ)
    (hL : ∀ k, (sampler k).length = L) :
    ∀ (fuel k : ℕ) (cur : List G),
      (sample_rounds sampler target max_iter k cur fuel).1.length =
        rounds_len L target max_iter k cur.length fuel := by
  intro fuel
  induction fuel with
  | zero => intro k cur; rfl
  | succ fuel ih =>
    intro k cur
    rw [sample_rounds, rounds_len]
    split
    · simpa [hL] using ih (k+1) (cur ++ sampler k)
    · rfl

lemma sample_rounds_calls (sampler : ℕ → List G) (target max_iter : ℕ) :
    ∀ (fuel k : ℕ) (cur : List G),
      (sample_rounds sampler target max_iter k cur fuel).2 ≤ fuel := by
  intro fuel
  induction fuel with
  | zero => intro k cur; simp [sample_rounds]
  | succ fuel ih =>
    intro k cur
    rw [sample_rounds]
    split
    · simpa using Nat.succ_le_succ (ih (k+1) _)
    · simp

lemma sample_rounds_stop (sampler : ℕ → List G) (target max_iter : ℕ)
    (k : ℕ) (cur : List G) (fuel : ℕ) (h : target ≤ cur.length) :
    sample_rounds sampler target max_iter k cur fuel = (cur, 0) := by
  cases fuel with
  | zero => rfl
  | succ fuel => rw [sample_rounds]; simp [Nat.not_lt.mpr h]

lemma generate_bucket_length (sampler : ℕ → List G)
    (shuffle : List G → List G) (hs : ∀ l : List G, (shuffle l).length = l.length)
    (target max_iter : ℕ) :
    (generate_bucket sampler shuffle target max_iter).length =
      min (sample_rounds sampler target max_iter 1 [] max_iter).1.length
        target := by
  rw [generate_bucket]
  split
  · rename_i hgt
    rw [hs] at hgt
    simp [List.length_take, hs]
    omega
  · rename_i hle
    rw [hs] at hle
    rw [hs]
    omega

/-- C4: with a per-call stub of exactly 7 grasps, target 20, two opening
ratios and `max_iter = 3`, every bucket ends with exactly 20 grasps and the
returned list has 40; in general the per-ratio loop makes at most
`max_iter` sampler calls, stops as soon as the accumulator reaches the
target, and the bucket is the accumulator truncated to the target (never
padded). -/
theorem generate_grasps_spec :
    (∀ (G : Type) (sampler : ℕ → ℕ → List G) (shuffle : List G → List G),
      (∀ l, (shuffle l).length = l.length) →
      (∀ r k, (sampler r k).length = 7) →
      (∀ rid, (generate_bucket (sampler rid) shuffle 20 3).length = 20) ∧
      (generate_grasps sampler shuffle 20 3 2).length = 40) ∧
    (∀ (G : Type) (sampler : ℕ → List G) (target max_iter : ℕ),
      (sample_rounds sampler target max_iter 1 [] max_iter).2 ≤ max_iter) ∧
    (∀ (G : Type) (sampler : ℕ → List G) (target max_iter k : ℕ)
      (cur : List G) (fuel : ℕ), target ≤ cur.length →
      sample_rounds sampler target max_iter k cur fuel = (cur, 0)) ∧
    (∀ (G : Type) (sampler : ℕ → List G) (shuffle : List G → List G),
      (∀ l, (shuffle l).length = l.length) → ∀ (target max_iter : ℕ),
      (generate_bucket sampler shuffle target max_iter).length =
        min (sample_rounds sampler target max_iter 1 [] max_iter).1.length
          target) := by
  refine ⟨?_, fun G sampler target mi => sample_rounds_calls sampler target mi mi 1 [],
    fun G sampler target mi k cur fuel h => sample_rounds_stop sampler target mi k cur fuel h,
    fun G sampler shuffle hs target mi => generate_bucket_length sampler shuffle hs target mi⟩
  intro G sampler shuffle hs hstub
  have hacc : ∀ rid, (sample_rounds (sampler rid) 20 3 1 [] 3).1.length = 21 := by
    intro rid
    rw [sample_rounds_length (sampler rid) 7 20 3 (hstub rid) 3 1 []]
    show rounds_len 7 20 3 1 0 3 = 21
    decide
  have hbucket : ∀ rid, (generate_bucket (sampler rid) shuffle 20 3).length = 20 := by
    intro rid
    rw [generate_bucket_length (sampler rid) shuffle hs 20 3, hacc rid]
    decide
  refine ⟨hbucket, ?_⟩
  rw [generate_grasps, hs]
  have : List.range 2 = [0, 1] := by decide
  rw [this]
  simp [List.map_cons, hbucket 0, hbucket 1]

/-- C4 witness: the scenario conclusions at the concrete stub returning
`[0, ..., 0]` (7 zeros) on every call, with the identity shuffle. -/
theorem generate_grasps_spec_witness :
    (generate_bucket ((fun _ _ => List.replicate 7 (0 : ℕ)) 0) id 20 3).length
        = 20 ∧
    (generate_grasps (fun _ _ => List.replicate 7 (0 : ℕ)) id 20 3 2).length
        = 40 :=
  ⟨(generate_grasps_spec.1 ℕ (fun _ _ => List.replicate 7 0) id
      (fun _ => rfl) (fun _ _ => by simp)).1 0,
   (generate_grasps_spec.1 ℕ (fun _ _ => List.replicate 7 0) id
      (fun _ => rfl) (fun _ _ => by simp)).2⟩

/-! ## Antipodal sampler (`AntipodalGraspSampler.sample_grasps`, lines 437-548).

Oracles, with their source counterparts:
* `cone_at_point x1` — the success flag of
  `Contact3D(graspable, x1).friction_cone(num_cone_faces, friction_coef)`
  (line 474); the tangent computation of line 473 has no effect on control
  flow and the sampled direction `v` produced from the cone by
  `sample_from_cone` (an external numeric computation over `theta`, `r`
  draws) is carried on the trial tape.
* `grasp_search x1 v width angle min_width` — the triple returned by
  `ParallelJawPtGrasp3D.grasp_from_contact_and_axis_on_grid` (line 503).
* `close_fingers g` — `g.close_fingers(graspable)` (lines 512, 539).
* `dist c1 c2` — `np.linalg.norm(c1.point - c2.point)` (line 519).
* `center_from_endpoints` — `ParallelJawPtGrasp3D.center_from_endpoints`
  on the contact points (line 523).
* `cone_at_contact c` — the success flag of
  `c.friction_cone(num_cone_faces, friction_coef)` (lines 526, 529).
* `force_closure` — `PointGraspMetrics3D.force_closure` (line 534). -/

/-- Oracles of the antipodal sampler; `C` is the type of `Contact3D`
values. -/
structure AntipodalEnv (C : Type) where
  resolution : ℚ
  max_width : ℚ
  min_width : ℚ
  min_contact_dist : ℚ
  cone_at_point : Vec3 → Bool
  grasp_search : Vec3 → Vec3 → ℚ → ℚ → ℚ → Option Grasp × Option C × Option C
  close_fingers : Grasp → Bool × C × C
  dist : C → C → ℚ
  center_from_endpoints : C → C → Vec3
  cone_at_contact : C → Bool
  force_closure : C → C → Bool

/-- The width-minimization loop of lines 536-543 run over the ratio prefix
`ratios.take openning_ratio_id`: set the width to `r * gripper.max_width`
and stop at the first ratio whose finger closing succeeds; on failure the
width is restored to `original` before the next index is tried, so an
exhausted scan leaves `original`. -/
def minimize_width (close_w : ℚ → Bool) (max_w original : ℚ) :
    List ℚ → ℚ
  | [] => original
  | r :: rest =>
    if close_w (r * max_w) then r * max_w
    else minimize_width close_w max_w original rest

/-- Finger closing re-run on a grasp with its width replaced (the call
`grasp.close_fingers(graspable)` at line 539 after the width mutation at
line 538). -/
def rerun_close (E : AntipodalEnv C) (g : Grasp) (gw : ℚ) : Bool :=
  (E.close_fingers { g with max_grasp_width := gw }).1

/-- A grasp accepted by the antipodal sampler, instrumented with the true
contact pair that passed the tests and the max width the grasp had before
width minimization. -/
structure Accepted (C : Type) where
  grasp : Grasp
  c1 : C
  c2 : C
  original_width : ℚ
deriving DecidableEq

/-- One trial of the inner loop of `sample_grasps` (lines 468-544): perturb
the surface point, build the friction cone at it, search for an antipodal
pair along the sampled direction, re-close the fingers for the true
contacts, apply the distance / cone / force-closure rejections, update the
center and minimize the width.  `none` means the trial produced no
grasp. -/
def antipodal_trial (E : AntipodalEnv C) (ratios : List ℚ) (rid : ℕ)
    (x_surf : Vec3) (t : TrialRand) : Option (Accepted C) :=
  let x1 := antipodal_x1 E.resolution x_surf t
  if E.cone_at_point x1 = false then none else
  let grasp_width := ratios.getD rid 0 * E.max_width
  match E.grasp_search x1 t.v grasp_width t.angle E.min_width with
  | (some g0, _, some _) =>
    match E.close_fingers g0 with
    | (false, _, _) => none
    | (true, c1, c2) =>
      if E.dist c1 c2 < E.min_contact_dist then none else
      let g1 : Grasp := { g0 with center := E.center_from_endpoints c1 c2 }
      if E.cone_at_contact c1 = false then none else
      if E.cone_at_contact c2 = false then none else
      if E.force_closure c1 c2 then
        let original := g1.max_grasp_width
        let w := minimize_width (rerun_close E g1) E.max_width original
          (ratios.take rid)
        some ⟨{ g1 with max_grasp_width := w }, c1, c2, original⟩
      else none
  | _ => none

/-- The accepted grasps of one `sample_grasps` call in discovery order
(lines 457-544): the outer loop over the shuffled, capped surface-point
list (the shuffle is randomness, so `pts` is the post-shuffle tape) and the
inner loop of `num_samples` trials per point, with the trial randomness on
`tape`. -/
def antipodal_accepted_list (E : AntipodalEnv C) (ratios : List ℚ)
    (rid num_samples max_pts : ℕ) (pts : List Vec3)
    (tape : ℕ → ℕ → TrialRand) : List (Accepted C) :=
  ((pts.take (min max_pts pts.length)).enum.map (fun pk =>
    (List.range num_samples).filterMap (fun i =>
      antipodal_trial E ratios rid pk.2 (tape pk.1 i)))).flatten

/-- `AntipodalGraspSampler.sample_grasps`: the accepted grasps, shuffled
(line 547). -/
def antipodal_sample_grasps (E : AntipodalEnv C) (ratios : List ℚ)
    (rid num_samples max_pts : ℕ) (pts : List Vec3)
    (tape : ℕ → ℕ → TrialRand) (shuffle : List Grasp → List Grasp) :
    List Grasp :=
  shuffle ((antipodal_accepted_list E ratios rid num_samples max_pts pts
    tape).map (fun a => a.grasp))

/-- Every element of the accepted list comes from a successful trial. -/
lemma mem_antipodal_accepted {E : AntipodalEnv C} {ratios : List ℚ}
    {rid num_samples max_pts : ℕ} {pts : List Vec3}
    {tape : ℕ → ℕ → TrialRand} {a : Accepted C}
    (h : a ∈ antipodal_accepted_list E ratios rid num_samples max_pts pts
      tape) :
    ∃ x t, antipodal_trial E ratios rid x t = some a := by
  simp only [antipodal_accepted_list, List.mem_flatten, List.mem_map] at h
  obtain ⟨l, ⟨pk, hpk, rfl⟩, hl⟩ := h
  obtain ⟨i, hi, htrial⟩ := List.mem_filterMap.mp hl
  exact ⟨pk.2, tape pk.1 i, htrial⟩

/-- What a successful trial guarantees about the accepted record. -/
lemma antipodal_trial_eq_some {E : AntipodalEnv C} {ratios : List ℚ}
    {rid : ℕ} {x : Vec3} {t : TrialRand} {a : Accepted C}
    (h : antipodal_trial E ratios rid x t = some a) :
    E.min_contact_dist ≤ E.dist a.c1 a.c2 ∧
    E.cone_at_contact a.c1 = true ∧
    E.cone_at_contact a.c2 = true ∧
    E.force_closure a.c1 a.c2 = true ∧
    (E.close_fingers a.grasp).1 =
      rerun_close E a.grasp a.grasp.max_grasp_width ∧
    a.grasp.max_grasp_width =
      minimize_width (rerun_close E a.grasp) E.max_width a.original_width
        (ratios.take rid) := by
  rw [antipodal_trial] at h
  split at h
  · exact absurd h (by simp)
  dsimp only at h
  split at h
  case _ g0 c2opt heq =>
    split at h
    · exact absurd h (by simp)
    case _ c1 c2 hclose =>
      split at h
      · exact absurd h (by simp)
      case _ hdist =>
        split at h
        · exact absurd h (by simp)
        case _ hc1 =>
          split at h
          · exact absurd h (by simp)
          case _ hc2 =>
            split at h
            case isTrue hfc =>
              injection h with h
              subst h
              exact ⟨le_of_not_lt hdist, Bool.of_not_eq_false hc1,
                Bool.of_not_eq_false hc2, hfc, rfl, rfl⟩
            case isFalse hfc => exact absurd h (by simp)
  · exact absurd h (by simp)

/-- Characterization of the width-minimization scan: either some index
succeeds — then the result is the width of the smallest such index, all
smaller indices having failed — or no index succeeds and the result is the
original width. -/
lemma minimize_width_spec (cw : ℚ → Bool) (mw orig : ℚ) :
    ∀ rs : List ℚ,
      (∃ j, j < rs.length ∧ cw (rs.getD j 0 * mw) = true ∧
        minimize_width cw mw orig rs = rs.getD j 0 * mw ∧
        ∀ i, i < j → cw (rs.getD i 0 * mw) = false) ∨
      (minimize_width cw mw orig rs = orig ∧
        ∀ j, j < rs.length → cw (rs.getD j 0 * mw) = false) := by
  intro rs
  induction rs with
  | nil => right; exact ⟨rfl, by simp⟩
  | cons r rest ih =>
    by_cases hc : cw (r * mw) = true
    · left
      refine ⟨0, by simp, by simpa using hc, ?_, by simp⟩
      simp [minimize_width, hc]
    · have hc2 : cw (r * mw) = false := by
        cases hcc : cw (r * mw) with
        | false => rfl
        | true => exact absurd hcc hc
      rcases ih with ⟨j, hj, hcw, heq, hmin⟩ | ⟨heq, hall⟩
      · left
        refine ⟨j + 1, by simpa using Nat.succ_lt_succ hj, ?_, ?_, ?_⟩
        · simpa using hcw
        · simpa [minimize_width, hc2] using heq
        · intro i hi
          cases i with
          | zero => simpa using hc2
          | succ i =>
            simpa using hmin i (Nat.lt_of_succ_lt_succ hi)
      · right
        refine ⟨by simpa [minimize_width, hc2] using heq, ?_⟩
        intro j hj
        cases j with
        | zero => simpa using hc2
        | succ j => simpa using hall j (Nat.lt_of_succ_lt_succ hj)

/-- Reading inside a prefix agrees with reading the original list. -/
lemma getD_take_eq : ∀ (l : List ℚ) (k j : ℕ), j < k →
    (l.take k).getD j 0 = l.getD j 0 := by
  intro l
  induction l with
  | nil => intro k j _; simp
  | cons x xs ih =>
    intro k j hj
    cases k with
    | zero => omega
    | succ k =>
      cases j with
      | zero => simp
      | succ j =>
        simpa using ih k j (Nat.lt_of_succ_lt_succ hj)

/-- C1 (amended): for every grasp accepted by the antipodal sampler after
the force-closure test, the returned max opening width is
`openning_ratios[j] * gripper.max_width` for the smallest index
`j < openning_ratio_id` at which `close_fingers` succeeds (and re-running
`close_fingers` at that width succeeds), and if no such index succeeds the
original max opening width is restored.  (The unamended claim also asserted
a successful re-close in the restore case; the counterexample refutes
that.) -/
theorem antipodal_width_minimization_spec :
    ∀ (C : Type) (E : AntipodalEnv C) (ratios : List ℚ)
      (rid num_samples max_pts : ℕ) (pts : List Vec3)
      (tape : ℕ → ℕ → TrialRand),
      ∀ a ∈ antipodal_accepted_list E ratios rid num_samples max_pts pts tape,
        a.grasp.max_grasp_width =
          minimize_width (rerun_close E a.grasp) E.max_width
            a.original_width (ratios.take rid) ∧
        ((∃ j, j < rid ∧ j < ratios.length ∧
            rerun_close E a.grasp (ratios.getD j 0 * E.max_width) = true ∧
            a.grasp.max_grasp_width = ratios.getD j 0 * E.max_width ∧
            (∀ i, i < j →
              rerun_close E a.grasp (ratios.getD i 0 * E.max_width) = false) ∧
            rerun_close E a.grasp a.grasp.max_grasp_width = true) ∨
          (a.grasp.max_grasp_width = a.original_width ∧
            ∀ j, j < rid → j < ratios.length →
              rerun_close E a.grasp (ratios.getD j 0 * E.max_width) = false)) := by
  intro C E ratios rid ns mp pts tape a ha
  obtain ⟨x, t, htrial⟩ := mem_antipodal_accepted ha
  obtain ⟨-, -, -, -, -, hw⟩ := antipodal_trial_eq_some htrial
  refine ⟨hw, ?_⟩
  rcases minimize_width_spec (rerun_close E a.grasp) E.max_width
      a.original_width (ratios.take rid) with
    ⟨j, hj, hcw, heq, hmin⟩ | ⟨heq, hall⟩
  · left
    have hjb : j < rid ∧ j < ratios.length := by
      rw [List.length_take] at hj; omega
    refine ⟨j, hjb.1, hjb.2, ?_, ?_, ?_, ?_⟩
    · rw [← getD_take_eq ratios rid j hjb.1]; exact hcw
    · rw [hw, heq, getD_take_eq ratios rid j hjb.1]
    · intro i hi
      rw [← getD_take_eq ratios rid i (lt_trans hi hjb.1)]
      exact hmin i hi
    · rw [hw, heq]; exact hcw
  · right
    refine ⟨by rw [hw, heq], ?_⟩
    intro j hjr hjl
    have hjt : j < (ratios.take rid).length := by
      rw [List.length_take]; omega
    rw [← getD_take_eq ratios rid j hjr]
    exact hall j hjt

/-- Trial tape used by the concrete antipodal scenarios: all random draws
zero. -/
def tape0 : ℕ → ℕ → TrialRand := fun _ _ => ⟨⟨0, 0, 0⟩, ⟨0, 0, 0⟩, 0⟩

/-- Concrete antipodal environment for the C1 counterexample: finger
closing succeeds only at grasp center 0, the contact search returns a grasp
centered at 0 at width 2, and the true contacts (at separation 10)
recenter the grasp at x = 5. -/
def envC1 : AntipodalEnv ℚ where
  resolution := 0
  max_width := 2
  min_width := 0
  min_contact_dist := 1
  cone_at_point := fun _ => true
  grasp_search := fun _ _ _ _ _ => (some ⟨⟨0, 0, 0⟩, ⟨1, 0, 0⟩, 2⟩, some 0, some 0)
  close_fingers := fun g => (decide (g.center = ⟨0, 0, 0⟩), 0, 10)
  dist := fun _ _ => 10
  center_from_endpoints := fun _ _ => ⟨5, 0, 0⟩
  cone_at_contact := fun _ => true
  force_closure := fun _ _ => true

/-- C1 counterexample: with `openning_ratio_id = 0` the width-minimization
scan is empty and the original width is kept, yet re-running
`close_fingers` on the returned grasp (whose center was updated to the true
contact midpoint after the closing test) fails, refuting "re-running
close_fingers at the returned width succeeds" as stated. -/
theorem antipodal_width_minimization_cex :
    antipodal_accepted_list envC1 [1] 0 1 1 [⟨0, 0, 0⟩] tape0 =
      [⟨⟨⟨5, 0, 0⟩, ⟨1, 0, 0⟩, 2⟩, 0, 10, 2⟩] ∧
    rerun_close envC1 ⟨⟨5, 0, 0⟩, ⟨1, 0, 0⟩, 2⟩ 2 = false ∧
    (⟨⟨⟨5, 0, 0⟩, ⟨1, 0, 0⟩, 2⟩, (0 : ℚ), 10, 2⟩ :
      Accepted ℚ).grasp.max_grasp_width = 2 := by
  refine ⟨by decide, by decide, rfl⟩

/-- Accepted record produced by the `envC1` scenario; used by the C1
witness. -/
def c1Accepted : Accepted ℚ := ⟨⟨⟨5, 0, 0⟩, ⟨1, 0, 0⟩, 2⟩, 0, 10, 2⟩

/-- C1 witness: the amended claim applied to the accepted grasp of the
`envC1` scenario (ratio index 0, empty scan, original width restored). -/
theorem antipodal_width_minimization_spec_witness :
    c1Accepted.grasp.max_grasp_width =
      minimize_width (rerun_close envC1 c1Accepted.grasp) envC1.max_width
        c1Accepted.original_width (([1] : List ℚ).take 0) ∧
    ((∃ j, j < 0 ∧ j < ([1] : List ℚ).length ∧
        rerun_close envC1 c1Accepted.grasp
          (([1] : List ℚ).getD j 0 * envC1.max_width) = true ∧
        c1Accepted.grasp.max_grasp_width =
          ([1] : List ℚ).getD j 0 * envC1.max_width ∧
        (∀ i, i < j → rerun_close envC1 c1Accepted.grasp
          (([1] : List ℚ).getD i 0 * envC1.max_width) = false) ∧
        rerun_close envC1 c1Accepted.grasp c1Accepted.grasp.max_grasp_width
          = true) ∨
      (c1Accepted.grasp.max_grasp_width = c1Accepted.original_width ∧
        ∀ j, j < 0 → j < ([1] : List ℚ).length →
          rerun_close envC1 c1Accepted.grasp
            (([1] : List ℚ).getD j 0 * envC1.max_width) = false)) :=
  antipodal_width_minimization_spec ℚ envC1 [1] 0 1 1 [⟨0, 0, 0⟩] tape0
    c1Accepted (by
      have h : antipodal_accepted_list envC1 [1] 0 1 1 [⟨0, 0, 0⟩] tape0 =
          [c1Accepted] := by decide
      rw [h]
      exact List.mem_singleton.mpr rfl)

/-- C2 (amended): every grasp returned by the antipodal sampler comes from
an accepted record whose true contact separation (from `close_fingers`) is
at least `min_contact_dist`; candidates with separation strictly below
`min_contact_dist` are rejected and produce no grasp. -/
theorem antipodal_contact_dist_spec :
    ∀ (C : Type) (E : AntipodalEnv C) (ratios : List ℚ)
      (rid num_samples max_pts : ℕ) (pts : List Vec3)
      (tape : ℕ → ℕ → TrialRand) (shuffle : List Grasp → List Grasp),
      (∀ l, (shuffle l).Perm l) →
      ∀ g ∈ antipodal_sample_grasps E ratios rid num_samples max_pts pts
        tape shuffle,
        ∃ a ∈ antipodal_accepted_list E ratios rid num_samples max_pts pts
          tape, a.grasp = g ∧ E.min_contact_dist ≤ E.dist a.c1 a.c2 := by
  intro C E ratios rid ns mp pts tape shuffle hs g hg
  rw [antipodal_sample_grasps] at hg
  have hg2 := (hs _).mem_iff.mp hg
  obtain ⟨a, ha, rfl⟩ := List.mem_map.mp hg2
  obtain ⟨x, t, htrial⟩ := mem_antipodal_accepted ha
  exact ⟨a, ha, rfl, (antipodal_trial_eq_some htrial).1⟩

/-- Concrete antipodal environment for the C2 counterexample: the true
contacts land at separation exactly `min_contact_dist`. -/
def envC2 : AntipodalEnv ℚ where
  resolution := 0
  max_width := 2
  min_width := 0
  min_contact_dist := 1
  cone_at_point := fun _ => true
  grasp_search := fun _ _ _ _ _ => (some ⟨⟨0, 0, 0⟩, ⟨1, 0, 0⟩, 2⟩, some 0, some 0)
  close_fingers := fun _ => (true, 0, 1)
  dist := fun _ _ => 1
  center_from_endpoints := fun _ _ => ⟨3, 0, 0⟩
  cone_at_contact := fun _ => true
  force_closure := fun _ _ => true

/-- C2 counterexample: a grasp is returned although its true contact
separation equals `min_contact_dist` — the rejection test is strict
(`dist < min_contact_dist`), so the separation is not strictly greater than
`min_contact_dist` as claimed. -/
theorem antipodal_contact_dist_cex :
    antipodal_sample_grasps envC2 [1] 0 1 1 [⟨0, 0, 0⟩] tape0 id =
      [⟨⟨3, 0, 0⟩, ⟨1, 0, 0⟩, 2⟩] ∧
    antipodal_accepted_list envC2 [1] 0 1 1 [⟨0, 0, 0⟩] tape0 =
      [⟨⟨⟨3, 0, 0⟩, ⟨1, 0, 0⟩, 2⟩, 0, 1, 2⟩] ∧
    envC2.dist (0 : ℚ) 1 = envC2.min_contact_dist ∧
    ¬(envC2.min_contact_dist < envC2.dist (0 : ℚ) 1) := by
  refine ⟨by decide, by decide, by decide, by decide⟩

/-- C2 witness: the amended claim applied to the grasp returned by the
`envC2` scenario with the identity shuffle. -/
theorem antipodal_contact_dist_spec_witness :
    ∃ a ∈ antipodal_accepted_list envC2 [1] 0 1 1 [⟨0, 0, 0⟩] tape0,
      a.grasp = (⟨⟨3, 0, 0⟩, ⟨1, 0, 0⟩, 2⟩ : Grasp) ∧
      envC2.min_contact_dist ≤ envC2.dist a.c1 a.c2 :=
  antipodal_contact_dist_spec ℚ envC2 [1] 0 1 1 [⟨0, 0, 0⟩] tape0 id
    (fun l => List.Perm.refl l) ⟨⟨3, 0, 0⟩, ⟨1, 0, 0⟩, 2⟩
    (by
      have h : antipodal_sample_grasps envC2 [1] 0 1 1 [⟨0, 0, 0⟩] tape0 id =
          [⟨⟨3, 0, 0⟩, ⟨1, 0, 0⟩, 2⟩] := by decide
      rw [h]
      exact List.mem_singleton.mpr rfl)

/-- C3: every grasp returned by the antipodal sampler comes from an
accepted record for which friction-cone construction succeeded at both true
contacts and the force-closure predicate held at the true contact pair; a
candidate failing any of these is never returned. -/
theorem antipodal_force_closure_spec :
    ∀ (C : Type) (E : AntipodalEnv C) (ratios : List ℚ)
      (rid num_samples max_pts : ℕ) (pts : List Vec3)
      (tape : ℕ → ℕ → TrialRand) (shuffle : List Grasp → List Grasp),
      (∀ l, (shuffle l).Perm l) →
      ∀ g ∈ antipodal_sample_grasps E ratios rid num_samples max_pts pts
        tape shuffle,
        ∃ a ∈ antipodal_accepted_list E ratios rid num_samples max_pts pts
          tape, a.grasp = g ∧
          E.cone_at_contact a.c1 = true ∧ E.cone_at_contact a.c2 = true ∧
          E.force_closure a.c1 a.c2 = true := by
  intro C E ratios rid ns mp pts tape shuffle hs g hg
  rw [antipodal_sample_grasps] at hg
  have hg2 := (hs _).mem_iff.mp hg
  obtain ⟨a, ha, rfl⟩ := List.mem_map.mp hg2
  obtain ⟨x, t, htrial⟩ := mem_antipodal_accepted ha
  obtain ⟨-, hc1, hc2, hfc, -, -⟩ := antipodal_trial_eq_some htrial
  exact ⟨a, ha, rfl, hc1, hc2, hfc⟩

/-- C3 witness: the claim applied to the grasp returned by the `envC2`
scenario with the identity shuffle. -/
theorem antipodal_force_closure_spec_witness :
    ∃ a ∈ antipodal_accepted_list envC2 [1] 0 1 1 [⟨0, 0, 0⟩] tape0,
      a.grasp = (⟨⟨3, 0, 0⟩, ⟨1, 0, 0⟩, 2⟩ : Grasp) ∧
      envC2.cone_at_contact a.c1 = true ∧ envC2.cone_at_contact a.c2 = true ∧
      envC2.force_closure a.c1 a.c2 = true :=
  antipodal_force_closure_spec ℚ envC2 [1] 0 1 1 [⟨0, 0, 0⟩] tape0 id
    (fun l => List.Perm.refl l) ⟨⟨3, 0, 0⟩, ⟨1, 0, 0⟩, 2⟩
    (by
      have h : antipodal_sample_grasps envC2 [1] 0 1 1 [⟨0, 0, 0⟩] tape0 id =
          [⟨⟨3, 0, 0⟩, ⟨1, 0, 0⟩, 2⟩] := by decide
      rw [h]
      exact List.mem_singleton.mpr rfl)

/-! ## Diversity down-selection (`GraspSampler.down_sample_grasps`,
lines 102-147).

The per-grasp feature vectors (center, axis, local PCA variance
proportions, width — lines 108-115) and their numpy norms are external
numeric computations; they are abstracted to the pairwise feature-distance
matrix `d` over grasp indices, with `d i i = 0` (the norm of a zero
vector) as a hypothesis where needed.  `np.random.shuffle` of the pending
ids is a caller-supplied permutation. -/

/-- Running minimum of `d i j` over `ids` (the `min_dist` accumulation of
lines 129-137); `none` is the initial `np.inf`. -/
def ds_min_from (d : ℕ → ℕ → ℚ) (i : ℕ) : Option ℚ → List ℕ → Option ℚ
  | m, [] => m
  | m, j :: rest =>
    ds_min_from d i
      (some (match m with
             | none => d i j
             | some v => min v (d i j))) rest

/-- Minimum distance from datapoint `i` to the datapoints indexed by
`ids`. -/
def ds_min_dist (d : ℕ → ℕ → ℚ) (i : ℕ) (ids : List ℕ) : Option ℚ :=
  ds_min_from d i none ids

/-- The acceptance test `min_dist > dist_thresh` (line 138), where
`min_dist = np.inf` (`none`) exceeds everything. -/
def ds_accept (thresh : ℚ) : Option ℚ → Bool
  | none => true
  | some v => decide (thresh < v)

/-- One pass over all datapoint indices (lines 128-139): each candidate is
compared against the already-selected ids and the ids accepted earlier in
the same pass. -/
def ds_round_go (d : ℕ → ℕ → ℚ) (sampled : List ℕ) (thresh : ℚ) :
    List ℕ → List ℕ → List ℕ
  | cur, [] => cur
  | cur, i :: rest =>
    ds_round_go d sampled thresh
      (if ds_accept thresh (ds_min_dist d i (sampled ++ cur)) then cur ++ [i]
       else cur) rest

/-- One full pass over the `n` datapoints. -/
def ds_round (d : ℕ → ℕ → ℚ) (n : ℕ) (sampled : List ℕ) (thresh : ℚ) :
    List ℕ :=
  ds_round_go d sampled thresh [] (List.range n)

/-- Maximum pairwise feature distance (lines 116-122), starting at 0. -/
def ds_max_dist (d : ℕ → ℕ → ℚ) (n : ℕ) : ℚ :=
  (List.range n).foldl (fun m i =>
    (List.range n).foldl (fun m2 j => max m2 (d i j)) m) 0

/-- Pending additions of one round after the shuffle-and-truncate of
lines 140-142 (the shuffle is applied only when the pending ids exceed the
remaining quota). -/
def ds_pending (d : ℕ → ℕ → ℚ) (n num_samples : ℕ)
    (shuffle : List ℕ → List ℕ) (sampled : List ℕ) (thresh : ℚ) : List ℕ :=
  let pending0 := ds_round d n sampled thresh
  if num_samples - sampled.length < pending0.length
  then (shuffle pending0).take (num_samples - sampled.length) else pending0

/-- The round loop of lines 124-145: while fewer than `num_samples` ids
are selected and `it < max_iter`, run a pass, append its (possibly
truncated) pending ids and halve the threshold.  Also returns the number
of rounds executed; fuel `max_iter` dominates the loop count since `it`
starts at 1. -/
def ds_loop (d : ℕ → ℕ → ℚ) (n num_samples max_iter : ℕ)
    (shuffle : List ℕ → List ℕ) :
    ℕ → List ℕ → ℚ → ℕ → List ℕ × ℕ
  | _, sampled, _, 0 => (sampled, 0)
  | it, sampled, thresh, fuel+1 =>
    if sampled.length < num_samples ∧ it < max_iter then
      let r := ds_loop d n num_samples max_iter shuffle (it+1)
        (sampled ++ ds_pending d n num_samples shuffle sampled thresh)
        (thresh / 2) fuel
      (r.1, r.2 + 1)
    else (sampled, 0)

/-- `GraspSampler.down_sample_grasps`: select ids starting from the empty
selection at threshold `ds_max_dist` (line 122), then index the grasp list
(line 147). -/
def down_sample_grasps {G : Type} (d : ℕ → ℕ → ℚ)
    (shuffle : List ℕ → List ℕ) (grasps : List G)
    (num_samples max_iter : ℕ) : List G :=
  (ds_loop d grasps.length num_samples max_iter shuffle 1 []
    (ds_max_dist d grasps.length) max_iter).1.filterMap
    (fun i => grasps.get? i)

/-- C7 counterexample: two grasps with identical feature vectors (pairwise
feature distance 0), quota 3, round budget 2 — the input is smaller than
`num_samples`, yet only one grasp is returned: the duplicate's minimum
distance to the first selected id is 0, never strictly above the
threshold, so it is never selected and the result count is 1, not 2. -/
theorem down_sample_grasps_cex :
    ([10, 20] : List ℕ).length < 3 ∧
    down_sample_grasps (fun _ _ => 0) id ([10, 20] : List ℕ) 3 2 = [10] ∧
    (down_sample_grasps (fun _ _ => 0) id ([10, 20] : List ℕ) 3 2).length ≠
      ([10, 20] : List ℕ).length := by
  refine ⟨by decide, by decide, by decide⟩

lemma ds_min_from_le_init (d : ℕ → ℕ → ℚ) (i : ℕ) :
    ∀ (ids : List ℕ) (v0 : ℚ),
      ∃ v, ds_min_from d i (some v0) ids = some v ∧ v ≤ v0 := by
  intro ids
  induction ids with
  | nil => intro v0; exact ⟨v0, rfl, le_refl v0⟩
  | cons a rest ih =>
    intro v0
    obtain ⟨v, hv, hle⟩ := ih (min v0 (d i a))
    exact ⟨v, hv, le_trans hle (min_le_left _ _)⟩

lemma ds_min_from_le (d : ℕ → ℕ → ℚ) (i : ℕ) :
    ∀ (ids : List ℕ) (m : Option ℚ) (j : ℕ), j ∈ ids →
      ∃ v, ds_min_from d i m ids = some v ∧ v ≤ d i j := by
  intro ids
  induction ids with
  | nil => intro m j hj; exact absurd hj (List.not_mem_nil j)
  | cons a rest ih =>
    intro m j hj
    rcases List.mem_cons.mp hj with rfl | hj2
    · cases m with
      | none => exact ds_min_from_le_init d i rest (d i j)
      | some v0 =>
        obtain ⟨v, hv, hle⟩ := ds_min_from_le_init d i rest (min v0 (d i j))
        exact ⟨v, hv, le_trans hle (min_le_right _ _)⟩
    · cases m with
      | none => exact ih (some (d i a)) j hj2
      | some v0 => exact ih (some (min v0 (d i a))) j hj2

/-- A candidate already in the compared-against list is never accepted:
its minimum distance is at most `d i i = 0`, which never strictly exceeds
a nonnegative threshold. -/
lemma ds_accept_mem_false (d : ℕ → ℕ → ℚ) {thresh : ℚ} (hth : 0 ≤ thresh)
    {i : ℕ} (hd : d i i = 0) {ids : List ℕ} (hi : i ∈ ids) :
    ds_accept thresh (ds_min_dist d i ids) = false := by
  obtain ⟨v, hv, hle⟩ := ds_min_from_le d i ids none i hi
  rw [ds_min_dist, hv]
  have hnlt : ¬ thresh < v := not_lt.mpr (le_trans (hle.trans_eq hd) hth)
  simp [ds_accept, hnlt]

/-- One pass only appends: the appended ids come from the scanned index
list, are mutually distinct, and avoid the already-selected ids. -/
lemma ds_round_go_spec (d : ℕ → ℕ → ℚ) (sampled : List ℕ) (thresh : ℚ)
    (hth : 0 ≤ thresh) (hd : ∀ i, d i i = 0) :
    ∀ (todo cur : List ℕ),
      ∃ extra, ds_round_go d sampled thresh cur todo = cur ++ extra ∧
        (∀ x ∈ extra, x ∈ todo) ∧ (todo.Nodup → extra.Nodup) ∧
        (∀ x ∈ extra, x ∉ sampled) := by
  intro todo
  induction todo with
  | nil =>
    intro cur
    exact ⟨[], by simp [ds_round_go], by simp, fun _ => List.nodup_nil,
      by simp⟩
  | cons a rest ih =>
    intro cur
    by_cases hacc : ds_accept thresh (ds_min_dist d a (sampled ++ cur)) = true
    · obtain ⟨extra, heq, hsub, hnd, hns⟩ := ih (cur ++ [a])
      refine ⟨a :: extra, ?_, ?_, ?_, ?_⟩
      · rw [ds_round_go, if_pos hacc, heq]
        simp
      · intro x hx
        rcases List.mem_cons.mp hx with h1 | hx2
        · rw [h1]; exact List.mem_cons_self a rest
        · exact List.mem_cons_of_mem a (hsub x hx2)
      · intro hnodup
        rcases List.nodup_cons.mp hnodup with ⟨hanr, hrest⟩
        exact List.nodup_cons.mpr ⟨fun hmem => hanr (hsub a hmem), hnd hrest⟩
      · intro x hx
        rcases List.mem_cons.mp hx with rfl | hx2
        · intro hxs
          have hfalse := ds_accept_mem_false d hth (hd x)
            (List.mem_append_left cur hxs)
          rw [hfalse] at hacc
          exact Bool.false_ne_true hacc
        · exact hns x hx2
    · obtain ⟨extra, heq, hsub, hnd, hns⟩ := ih cur
      refine ⟨extra, ?_, fun x hx => List.mem_cons_of_mem a (hsub x hx),
        fun hnodup => hnd (List.nodup_cons.mp hnodup).2, hns⟩
      rw [ds_round_go, if_neg hacc]
      exact heq

/-- The initial threshold (maximum pairwise distance, starting at 0) is
nonnegative. -/
lemma ds_max_dist_nonneg (d : ℕ → ℕ → ℚ) (n : ℕ) : 0 ≤ ds_max_dist d n := by
  have inner : ∀ (i : ℕ) (l : List ℕ) (m : ℚ),
      m ≤ l.foldl (fun m2 j => max m2 (d i j)) m := by
    intro i l
    induction l with
    | nil => intro m; exact le_refl m
    | cons a rest ih =>
      intro m
      exact le_trans (le_max_left m (d i a)) (ih (max m (d i a)))
  have outer : ∀ (l : List ℕ) (m : ℚ),
      m ≤ l.foldl (fun m2 i =>
        (List.range n).foldl (fun m3 j => max m3 (d i j)) m2) m := by
    intro l
    induction l with
    | nil => intro m; exact le_refl m
    | cons a rest ih =>
      intro m
      exact le_trans (inner a (List.range n) m) (ih _)
  exact outer (List.range n) 0

/-- The round loop only appends to the selection. -/
lemma ds_loop_extends (d : ℕ → ℕ → ℚ) (n ns mi : ℕ)
    (shuffle : List ℕ → List ℕ) :
    ∀ (fuel it : ℕ) (sampled : List ℕ) (thresh : ℚ),
      ∃ extra, (ds_loop d n ns mi shuffle it sampled thresh fuel).1 =
        sampled ++ extra := by
  intro fuel
  induction fuel with
  | zero => intro it sampled thresh; exact ⟨[], by simp [ds_loop]⟩
  | succ fuel ih =>
    intro it sampled thresh
    rw [ds_loop]
    split
    · obtain ⟨extra, hextra⟩ := ih (it+1)
        (sampled ++ ds_pending d n ns shuffle sampled thresh) (thresh / 2)
      exact ⟨ds_pending d n ns shuffle sampled thresh ++ extra, by
        simpa [List.append_assoc] using hextra⟩
    · exact ⟨[], by simp⟩

/-- The number of executed rounds is bounded by the fuel. -/
lemma ds_loop_rounds (d : ℕ → ℕ → ℚ) (n ns mi : ℕ)
    (shuffle : List ℕ → List ℕ) :
    ∀ (fuel it : ℕ) (sampled : List ℕ) (thresh : ℚ),
      (ds_loop d n ns mi shuffle it sampled thresh fuel).2 ≤ fuel := by
  intro fuel
  induction fuel with
  | zero => intro it sampled thresh; simp [ds_loop]
  | succ fuel ih =>
    intro it sampled thresh
    rw [ds_loop]
    split
    · simpa using Nat.succ_le_succ (ih (it+1) _ _)
    · simp

/-- Selected ids stay distinct and within the datapoint range. -/
lemma ds_loop_invariant (d : ℕ → ℕ → ℚ) (n ns mi : ℕ)
    (shuffle : List ℕ → List ℕ) (hd : ∀ i, d i i = 0)
    (hshuffle : ∀ l, (shuffle l).Perm l) :
    ∀ (fuel it : ℕ) (sampled : List ℕ) (thresh : ℚ), 0 ≤ thresh →
      sampled.Nodup → (∀ x ∈ sampled, x < n) →
      (ds_loop d n ns mi shuffle it sampled thresh fuel).1.Nodup ∧
        ∀ x ∈ (ds_loop d n ns mi shuffle it sampled thresh fuel).1, x < n := by
  intro fuel
  induction fuel with
  | zero => intro it sampled thresh hth hnd hlt; exact ⟨hnd, hlt⟩
  | succ fuel ih =>
    intro it sampled thresh hth hnd hlt
    rw [ds_loop]
    split
    · obtain ⟨extra, heq, hsub, hnde, hnotin⟩ :=
        ds_round_go_spec d sampled thresh hth hd (List.range n) []
      have hround : ds_round d n sampled thresh = extra := by
        rw [ds_round, heq]
        simp
      have hpend_sub : ∀ x ∈ ds_pending d n ns shuffle sampled thresh,
          x ∈ extra := by
        intro x hx
        rw [ds_pending] at hx
        split at hx
        · have hx2 := List.take_subset _ _ hx
          have hx3 := (hshuffle _).mem_iff.mp hx2
          rw [hround] at hx3
          exact hx3
        · rw [hround] at hx
          exact hx
      have hpend_nd : (ds_pending d n ns shuffle sampled thresh).Nodup := by
        rw [ds_pending]
        split
        · exact (List.take_sublist _ _).nodup
            ((hshuffle _).nodup_iff.mpr (hround ▸ hnde (List.nodup_range n)))
        · exact hround ▸ hnde (List.nodup_range n)
      have hnew_nd :
          (sampled ++ ds_pending d n ns shuffle sampled thresh).Nodup := by
        rw [List.nodup_append]
        exact ⟨hnd, hpend_nd, fun x hxs hxp =>
          hnotin x (hpend_sub x hxp) hxs⟩
      have hnew_lt :
          ∀ x ∈ sampled ++ ds_pending d n ns shuffle sampled thresh,
            x < n := by
        intro x hx
        rcases List.mem_append.mp hx with hxs | hxp
        · exact hlt x hxs
        · exact List.mem_range.mp (hsub x (hpend_sub x hxp))
      have hrec := ih (it+1)
        (sampled ++ ds_pending d n ns shuffle sampled thresh) (thresh / 2)
        (by linarith) hnew_nd hnew_lt
      simpa using hrec
    · exact ⟨hnd, hlt⟩

/-- A duplicate-free list of indices below `n` has at most `n` entries. -/
lemma nodup_bounded_length_le (l : List ℕ) (n : ℕ) (hnd : l.Nodup)
    (hlt : ∀ x ∈ l, x < n) : l.length ≤ n := by
  have h1 : l.toFinset.card = l.length := List.toFinset_card_of_nodup hnd
  have h2 : l.toFinset ⊆ Finset.range n := by
    intro x hx
    exact Finset.mem_range.mpr (hlt x (List.mem_toFinset.mp hx))
  have h3 := Finset.card_le_card h2
  rw [h1, Finset.card_range] at h3
  exact h3

/-- Indexing a grasp list at in-range ids keeps the count. -/
lemma filterMap_get_length {G : Type} (grasps : List G) :
    ∀ ids : List ℕ, (∀ x ∈ ids, x < grasps.length) →
      (ids.filterMap (fun i => grasps.get? i)).length = ids.length := by
  intro ids
  induction ids with
  | nil => intro _; rfl
  | cons a rest ih =>
    intro h
    have ha : a < grasps.length := h a (List.mem_cons_self a rest)
    have hsome : grasps[a]? = some grasps[a] := List.getElem?_eq_getElem ha
    simp [List.filterMap_cons, hsome,
      ih (fun x hx => h x (List.mem_cons_of_mem a hx))]
    intro x hx
    rw [List.getElem?_eq_getElem (h x (List.mem_cons_of_mem a hx))]
    rfl

/-- C7 (amended): `down_sample_grasps` never throws (it is a total
function of its oracles); the selected-id list only grows across rounds;
the round loop executes at most `max_iter` rounds; and for an input grasp
list smaller than `num_samples` it returns at most as many grasps as it
was given.  (The unamended claim promised exactly as many; the
counterexample with two identical feature vectors refutes that.) -/
theorem down_sample_grasps_spec :
    (∀ (d : ℕ → ℕ → ℚ) (n ns mi : ℕ) (shuffle : List ℕ → List ℕ)
      (it : ℕ) (sampled : List ℕ) (thresh : ℚ) (fuel : ℕ),
      ∃ extra, (ds_loop d n ns mi shuffle it sampled thresh fuel).1 =
        sampled ++ extra) ∧
    (∀ (d : ℕ → ℕ → ℚ) (n ns mi : ℕ) (shuffle : List ℕ → List ℕ)
      (thresh : ℚ),
      (ds_loop d n ns mi shuffle 1 [] thresh mi).2 ≤ mi) ∧
    (∀ (G : Type) (d : ℕ → ℕ → ℚ) (shuffle : List ℕ → List ℕ)
      (grasps : List G) (ns mi : ℕ),
      (∀ i, d i i = 0) → (∀ l, (shuffle l).Perm l) →
      grasps.length < ns →
      (down_sample_grasps d shuffle grasps ns mi).length ≤
        grasps.length) := by
  refine ⟨fun d n ns mi shuffle it sampled thresh fuel =>
      ds_loop_extends d n ns mi shuffle fuel it sampled thresh,
    fun d n ns mi shuffle thresh =>
      ds_loop_rounds d n ns mi shuffle mi 1 [] thresh, ?_⟩
  intro G d shuffle grasps ns mi hd hshuffle hsize
  rw [down_sample_grasps]
  obtain ⟨hnd, hlt⟩ := ds_loop_invariant d grasps.length ns mi shuffle hd
    hshuffle mi 1 [] (ds_max_dist d grasps.length)
    (ds_max_dist_nonneg d grasps.length) List.nodup_nil (by simp)
  rw [filterMap_get_length grasps _ hlt]
  exact nodup_bounded_length_le _ _ hnd hlt

/-- C7 witness: the amended claim applied to a single grasp with quota 2
and round budget 2. -/
theorem down_sample_grasps_spec_witness :
    (down_sample_grasps (fun _ _ => (0 : ℚ)) id [(10 : ℕ)] 2 2).length ≤
      [(10 : ℕ)].length :=
  down_sample_grasps_spec.2.2 ℕ (fun _ _ => 0) id [10] 2 2 (fun _ => rfl)
    (fun l => List.Perm.refl l) (by decide)

end DexNet
